import Mathlib

/-!
Verification of the MaidCode interpreter core against its specification.

The development shallowly embeds the value model, the value operations
(values/number.rs, values/string.rs, values/list.rs, values/value.rs), the
symbol-table chain (interpreting/symbol_table.rs) and the tree-walking
evaluator (interpreting/interpreter.rs, values/function.rs,
values/built_in_function.rs) of the MaidCode language, and proves or refutes
the frozen claims about them.

Modelling conventions:
- Rust f64 numbers are modelled as rationals.  Every claim under study depends
  only on exact arithmetic, comparisons and zero tests, which agree with f64
  on the inputs exercised.  The single genuinely host-dependent primitive,
  f64::powf, is abstracted as an explicit function parameter.
- Source spans (pos_start, pos_end) and context back-references carried by
  values, nodes and errors are rendering metadata and are elided.
- Fallible host behavior is explicit: a Rust panic (an unwrap of None) is
  modelled as the Option value none, and unbounded recursion is cut by a fuel
  parameter, whose exhaustion is also none.
-/

namespace MaidCode

/-- Model of StandardError (errors/standard_error.rs): the message text and the
optional help hint.  The two source positions are rendering metadata, elided. -/
structure StandardError where
  text : String
  help : Option String
deriving DecidableEq, Repr

/-- Model of AstNode (nodes/ast_node.rs) restricted to what the evaluator
consumes.  Number tokens are already parsed (the literal parse in
visit_number_node is elided), binary/unary operator tokens are represented by
the operator symbol string that visit_binary_operator_node and
visit_unary_operator_node translate them to, and the import node (host
filesystem access) is omitted.  Span fields are elided. -/
inductive AstNode where
  | numberLit (value : ℚ)
  | stringLit (value : String)
  | listNode (elementNodes : List AstNode)
  | varAccess (name : String)
  | varAssign (name : String) (valueNode : AstNode)
  | constAssign (name : String) (valueNode : AstNode)
  | binaryOp (op : String) (left : AstNode) (right : AstNode)
  | unaryOp (op : String) (operand : AstNode)
  | ifNode (cases : List (AstNode × AstNode × Bool)) (elseCase : Option (AstNode × Bool))
  | forNode (varName : String) (startNode : AstNode) (endNode : AstNode)
      (stepNode : Option AstNode) (body : AstNode)
  | whileNode (condNode : AstNode) (body : AstNode)
  | tryExcept (tryBody : AstNode) (exceptBody : AstNode) (errName : String)
  | funcDef (name : Option String) (argNames : List String) (body : AstNode)
      (shouldAutoReturn : Bool)
  | call (callee : AstNode) (argNodes : List AstNode)
  | returnNode (valueNode : Option AstNode)
  | continueNode
  | breakNode
deriving Repr

/-- Model of Value (values/value.rs): the tagged union of runtime values.
Numbers are rationals (f64 modelled exactly on the inputs exercised), strings
keep their text, lists their elements.  A function value carries its name,
parameter names, body, auto-return flag and the scope chain of the context
the value currently holds: set_context writes that field at the definition
site and again whenever the value is re-tagged (variable access, call
results), and Function::execute parents the call scope on it, so it is NOT a
definition-time snapshot.  Since assignments only ever write the innermost
table, carrying the chain by value is faithful for the executions considered
here.  Span metadata, and the context field of non-function values (which
nothing observes), are elided. -/
inductive Value where
  | num (v : ℚ)
  | str (s : String)
  | list (elements : List Value)
  | func (name : String) (argNames : List String) (body : AstNode)
      (shouldAutoReturn : Bool) (context : List (List (String × Option Value)))
  | builtin (name : String)
deriving Repr

/-- One symbol table's map (interpreting/symbol_table.rs field symbols):
names bound to optional values, modelled as an association list. -/
abbrev Frame := List (String × Option Value)

/-- A chain of symbol tables, innermost first (the parent links of
SymbolTable). -/
abbrev Env := List Frame

/-- Rust cast expression (x as usize) applied to an f64: truncation toward
zero with negative values saturating to 0.  On every rational this agrees
with toNat of the floor (negative inputs give 0 either way). -/
def f64ToUsize (q : ℚ) : ℕ := (⌊q⌋).toNat

/-- Model of Value::is_true (values/value.rs lines 115-124): numbers are true
when nonzero; lists, strings and functions are true exactly when EMPTY (the
inverted convention the spec flags). -/
def valueIsTrue : Value → Bool
  | .num v => v != 0
  | .list elements => elements.isEmpty
  | .str s => s.isEmpty
  | .func name _ _ _ _ => name.isEmpty
  | .builtin name => name.isEmpty

/-- Error produced by Number::illegal_operation and List::illegal_operation. -/
def illegalOpError : StandardError := ⟨"operation not supported by type", none⟩

/-- Error produced by Str::illegal_operation. -/
def strIllegalOpError : StandardError := ⟨"operation not supported by the string type", none⟩

section PowfParameter

-- The host primitive f64::powf, abstracted: the claims only constrain when it
-- is consulted, never its output.
variable (powf : ℚ → ℚ → ℚ)

/-- Model of Number::perform_operation (values/number.rs lines 42-104).
Division by zero, non-positive exponents and non-positive modulo divisors are
errors; f64::rem_euclid with a positive divisor is the floored modulo
a - b * floor(a / b); comparisons and boolean operators yield 1 or 0. -/
def numberPerformOperation (a : ℚ) (operator : String) (other : Value) :
    Except StandardError Value :=
  match other with
  | .num b =>
    match operator with
    | "+" => .ok (.num (a + b))
    | "-" => .ok (.num (a - b))
    | "*" => .ok (.num (a * b))
    | "/" =>
      if b = 0 then .error ⟨"division by zero", none⟩
      else .ok (.num (a / b))
    | "^" =>
      if b ≤ 0 then .error ⟨"powered by operator less than or equal to 0", none⟩
      else .ok (.num (powf a b))
    | "%" =>
      if b ≤ 0 then .error ⟨"modded by operator less than or equal to 0", none⟩
      else .ok (.num (a - b * ⌊a / b⌋))
    | "==" => .ok (.num (if a = b then 1 else 0))
    | "!=" => .ok (.num (if a = b then 0 else 1))
    | "<" => .ok (.num (if a < b then 1 else 0))
    | ">" => .ok (.num (if b < a then 1 else 0))
    | "<=" => .ok (.num (if a ≤ b then 1 else 0))
    | ">=" => .ok (.num (if b ≤ a then 1 else 0))
    | "and" => .ok (.num (if a ≠ 0 ∧ b ≠ 0 then 1 else 0))
    | "or" => .ok (.num (if a ≠ 0 ∨ b ≠ 0 then 1 else 0))
    | "not" => .ok (.num (if a = 0 then 1 else 0))
    | _ => .error illegalOpError
  | _ => .error illegalOpError

/-- Model of Str::perform_operation (values/string.rs lines 32-134).  The
result is none exactly where the Rust code panics: the 0-based indexing branch
of the caret operator bounds-checks against the BYTE length (String::len) but
then indexes by CHARACTER (chars().nth(n).unwrap()), so an index at or past
the character count that is still below the byte count unwraps None. -/
def strPerformOperation (s : String) (operator : String) (other : Value) :
    Option (Except StandardError Value) :=
  match other with
  | .str t =>
    match operator with
    | "+" => some (.ok (.str (s ++ t)))
    | "-" => some (.ok (.str t))
    | "==" => some (.ok (.num (if s = t then 1 else 0)))
    | "!=" => some (.ok (.num (if s = t then 0 else 1)))
    | "and" => some (.ok (.num (if ¬s.isEmpty ∧ ¬t.isEmpty then 1 else 0)))
    | "or" => some (.ok (.num (if ¬s.isEmpty ∨ ¬t.isEmpty then 1 else 0)))
    | _ => some (.error strIllegalOpError)
  | .num q =>
    match operator with
    | "*" =>
      if q < 0 then
        some (.error ⟨"cannot multiply string by a negative value", none⟩)
      else some (.ok (.str (String.join (List.replicate (f64ToUsize q) s))))
    | "^" =>
      if q < -1 then
        some (.error ⟨"cannot access a negative index",
          some "use an index greater than or equal to 0 or use -1 to reverse the string"⟩)
      else if q = -1 then some (.ok (.str (String.mk s.data.reverse)))
      else if s.utf8ByteSize ≤ f64ToUsize q then
        some (.error ⟨"index is out of bounds", none⟩)
      else
        match s.data.get? (f64ToUsize q) with
        | some c => some (.ok (.str (String.mk [c])))
        | none => none
    | _ => some (.error strIllegalOpError)
  | _ => some (.error strIllegalOpError)

mutual

/-- Model of Value::perform_operation (values/value.rs lines 86-102):
dispatch on the left operand's kind; function and built-in values support no
operator. -/
def valuePerformOperation : Value → String → Value → Option (Except StandardError Value)
  | .num a, operator, other => some (numberPerformOperation powf a operator other)
  | .list elements, operator, other => listPerformOperation elements operator other
  | .str s, operator, other => strPerformOperation s operator other
  | .func _ _ _ _ _, operator, _ =>
    some (.error ⟨"type doesn't support the '" ++ operator ++ "' operator", none⟩)
  | .builtin _, operator, _ =>
    some (.error ⟨"type doesn't support the '" ++ operator ++ "' operator", none⟩)

/-- Model of List::perform_operation (values/list.rs lines 31-138): the star
operator pushes the right operand (checked before anything else); with a list
on the right, plus concatenates and the equality operators walk the zip of
the two element lists; with a number on the right, the caret operator indexes
(0-based, -1 reverses) and minus removes at an index. -/
def listPerformOperation (elements : List Value) (operator : String) (other : Value) :
    Option (Except StandardError Value) :=
  if operator = "*" then some (.ok (.list (elements ++ [other])))
  else
    match other with
    | .list rs =>
      match operator with
      | "+" => some (.ok (.list (elements ++ rs)))
      | "==" => listZipCompare elements rs "==" (.num 0)
      | "!=" => listZipCompare elements rs "!=" (.num 0)
      | "and" => some (.ok (.num (if ¬elements.isEmpty ∧ ¬rs.isEmpty then 1 else 0)))
      | "or" => some (.ok (.num (if ¬elements.isEmpty ∨ ¬rs.isEmpty then 1 else 0)))
      | _ => some (.error illegalOpError)
    | .num q =>
      match operator with
      | "^" =>
        if q < -1 then
          some (.error ⟨"cannot access a negative index",
            some "use an index greater than or equal to 0 or use -1 to reverse the list"⟩)
        else if q = -1 then some (.ok (.list elements.reverse))
        else if elements.length ≤ f64ToUsize q then
          some (.error ⟨"index is out of bounds", none⟩)
        else
          match elements.get? (f64ToUsize q) with
          | some v => some (.ok v)
          | none => none
      | "-" =>
        if q < 0 then
          some (.error ⟨"cannot access a negative index",
            some "use an index greater than or equal to 0"⟩)
        else if elements.length ≤ f64ToUsize q then
          some (.error ⟨"index is out of bounds", none⟩)
        else some (.ok (.list (elements.eraseIdx (f64ToUsize q))))
      | _ => some (.error illegalOpError)
    | _ => some (.error illegalOpError)

/-- The accumulator loop inside the == and != branches of
List::perform_operation: each pair's comparison result OVERWRITES the
accumulator (initialized to the null number 0 by the caller), so only the
last compared pair survives; an error from a pair comparison propagates
immediately. -/
def listZipCompare : List Value → List Value → String → Value →
    Option (Except StandardError Value)
  | a :: xs, b :: ys, operator, _ =>
    match valuePerformOperation a operator b with
    | none => none
    | some (.error e) => some (.error e)
    | some (.ok r) => listZipCompare xs ys operator r
  | _, _, _, acc => some (.ok acc)

end

end PowfParameter

/-- Rendering of a number (Number::as_string, via Rust's f64 Display).  The
model is exact on integral values, which print without a decimal point; a
non-integral rational falls back to the rational literal form (the shortest
round-trip decimal of f64 is host behavior outside the claims studied). -/
def numberAsString (q : ℚ) : String :=
  if q.den = 1 then toString q.num else toString q

/-- Model of Value::as_string together with List::as_string, Str::as_string,
Function::as_string and BuiltInFunction::as_string. -/
def valueAsString : Value → String
  | .num q => numberAsString q
  | .str s => s
  | .list elements =>
    "[" ++ String.intercalate ", " (elements.attach.map fun x => valueAsString x.1) ++ "]"
  | .func name _ _ _ _ => "function: " ++ name
  | .builtin name => "built-in-function: " ++ name
termination_by v => sizeOf v
decreasing_by
  have h := List.sizeOf_lt_of_mem x.2
  simp only [Value.list.sizeOf_spec]
  omega

/-- Hint text of the arity error produced by Function::check_args and
BuiltInFunction::check_args (their format string reads "takes N positional
argument(s) but the program gave M"). -/
def arityHint (name : String) (expected given : ℕ) : String :=
  name ++ " takes " ++ toString expected ++
    " positional argument(s) but the program gave " ++ toString given

/-- The arity StandardError those two check_args functions build. -/
def arityError (name : String) (expected given : ℕ) : StandardError :=
  ⟨"invalid function call", some (arityHint name expected given)⟩

/-- Model of RuntimeResult (interpreting/runtime_result.rs): a value plus the
explicit control-flow signals threaded through every visit. -/
structure RuntimeResult where
  value : Option Value
  error : Option StandardError
  funcReturnValue : Option Value
  loopShouldContinue : Bool
  loopShouldBreak : Bool
deriving Repr

/-- RuntimeResult::success after reset: only the value field is set. -/
def RuntimeResult.successWith (v : Option Value) : RuntimeResult :=
  ⟨v, none, none, false, false⟩

/-- RuntimeResult::failure after reset: only the error field is set. -/
def RuntimeResult.failureWith (e : StandardError) : RuntimeResult :=
  ⟨none, some e, none, false, false⟩

/-- RuntimeResult::success_return after reset. -/
def RuntimeResult.returnWith (v : Option Value) : RuntimeResult :=
  ⟨none, none, v, false, false⟩

/-- RuntimeResult::success_continue after reset. -/
def RuntimeResult.continueSignal : RuntimeResult := ⟨none, none, none, true, false⟩

/-- RuntimeResult::success_break after reset. -/
def RuntimeResult.breakSignal : RuntimeResult := ⟨none, none, none, false, true⟩

/-- RuntimeResult::should_return. -/
def RuntimeResult.shouldReturn (r : RuntimeResult) : Bool :=
  r.error.isSome || r.funcReturnValue.isSome || r.loopShouldContinue || r.loopShouldBreak

/-- The RuntimeResult a visit method returns at an early "return result" after
registering a sub-result into a fresh RuntimeResult: register copies the error,
return value and loop flags of the sub-result but never its value field, which
stays None. -/
def RuntimeResult.propagate (sub : RuntimeResult) : RuntimeResult :=
  ⟨none, sub.error, sub.funcReturnValue, sub.loopShouldContinue, sub.loopShouldBreak⟩

/-- Model of Function::check_args (values/function.rs lines 63-84): an arity
failure naming the expected and given counts when the argument count differs
from the parameter count in either direction, a success carrying no value
otherwise. -/
def functionCheckArgs (name : String) (argNames : List String) (args : List Value) :
    RuntimeResult :=
  if args.length > argNames.length ∨ args.length < argNames.length then
    .failureWith (arityError name argNames.length args.length)
  else .successWith none

/-- Lookup in one table's map (HashMap::get in SymbolTable::get): the stored
optional value if the name is a key. -/
def frameGet : Frame → String → Option (Option Value)
  | [], _ => none
  | (k, v) :: rest, name => if k = name then some v else frameGet rest name

/-- Model of SymbolTable::get (interpreting/symbol_table.rs lines 18-28): if
the innermost table has the name as a key, its stored option is returned as is
(a key bound to None stops the walk); otherwise the parent chain is consulted. -/
def envGet : Env → String → Option Value
  | [], _ => none
  | frame :: parents, name =>
    match frameGet frame name with
    | some v => v
    | none => envGet parents name

/-- Insertion into one table's map (HashMap::insert): replace the entry in
place if the key exists, append it otherwise. -/
def frameSet : Frame → String → Option Value → Frame
  | [], name, v => [(name, v)]
  | (k, w) :: rest, name, v =>
    if k = name then (k, v) :: rest else (k, w) :: frameSet rest name v

/-- Model of SymbolTable::set (interpreting/symbol_table.rs lines 30-36):
writing the name underscore is a no-op (the write sink); otherwise the
innermost table is updated.  An empty chain cannot arise (every context owns a
table) and is left unchanged. -/
def envSet : Env → String → Option Value → Env
  | [], _, _ => []
  | frame :: parents, name, v =>
    if name = "_" then frame :: parents else frameSet frame name v :: parents

/-- Interpreter state threaded through visiting: the scope chain of the
current context (innermost table first) and the lines printed to standard
output so far.  Rust shares tables through Rc<RefCell>; because
SymbolTable::set only ever writes the innermost table, threading the chain by
value is faithful for the executions considered. -/
structure InterpState where
  env : Env
  out : List String
deriving Repr

/-- Model of BuiltInFunction::execute (values/built_in_function.rs) for the
built-ins whose behavior is pure apart from standard output: serve prints a
value's textual form, tostring and type build strings, length counts (byte
length for strings, element count for lists), uhoh raises the given message
as an error.  Binding the arguments into the throwaway execution scope is
elided: that scope is dropped when the built-in returns and none of these
built-ins reads it.  Built-ins that interact with the host beyond standard
output (process, sweep, stash, tonumber, run, _env) are not modelled: none. -/
def builtinExecute (name : String) (args : List Value) (out : List String) :
    Option (RuntimeResult × List String) :=
  match name with
  | "serve" =>
    match args with
    | [v] => some (.successWith (some (.num 0)), out ++ [valueAsString v])
    | _ => some (.failureWith (arityError "serve" 1 args.length), out)
  | "tostring" =>
    match args with
    | [v] => some (.successWith (some (.str (valueAsString v))), out)
    | _ => some (.failureWith (arityError "tostring" 1 args.length), out)
  | "type" =>
    match args with
    | [v] =>
      some (.successWith (some (.str (match v with
        | .num _ => "number"
        | .list _ => "list"
        | .str _ => "string"
        | .func _ _ _ _ _ => "function"
        | .builtin _ => "built-in-function"))), out)
    | _ => some (.failureWith (arityError "type" 1 args.length), out)
  | "length" =>
    match args with
    | [v] =>
      match v with
      | .str s => some (.successWith (some (.num s.utf8ByteSize)), out)
      | .list elements => some (.successWith (some (.num elements.length)), out)
      | _ => some (.failureWith ⟨"expected type string or list", none⟩, out)
    | _ => some (.failureWith (arityError "length" 1 args.length), out)
  | "uhoh" =>
    match args with
    | [v] =>
      match v with
      | .str s => some (.failureWith ⟨s, none⟩, out)
      | _ => some (.failureWith ⟨"expected type string", some "add an error message"⟩, out)
    | _ => some (.failureWith (arityError "uhoh" 1 args.length), out)
  | _ => none

/-- Binding of call arguments into the fresh innermost table
(Function::populate_args): sequential SymbolTable::set calls, so the
underscore write sink applies.  The set_context re-tag of each bound argument
to the execution context is elided: it would make a function argument's
context field point into the very chain being built (an Rc cycle in the
source), and nothing modelled here reads a bound argument's context. -/
def populateArgs : List String → List Value → Frame → Frame
  | n :: ns, v :: vs, frame =>
    populateArgs ns vs (if n = "_" then frame else frameSet frame n (some v))
  | _, _, frame => frame

/-- Model of Value::set_context as observable in this embedding: the context
field is elided metadata for every value except functions, whose execution
parents on the chain their context field carries, so re-tagging replaces a
function value's chain with the current one and leaves other values alone.
visit_variable_access_node and visit_call_node apply this re-tag, which is
why a function reaching a call through a variable read carries the access
site's scope chain rather than a definition-time one. -/
def retagContext : Value → Env → Value
  | .func n a b r _, env => .func n a b r env
  | v, _ => v

section Interpreter

variable (powf : ℚ → ℚ → ℚ)

mutual

/-- Model of Interpreter::visit (interpreting/interpreter.rs), one case per
node kind, with a fuel parameter bounding recursion: every recursive visit
consumes one unit, and none means the budget ran out or the host panicked
(an unwrap of None in the source).  The import node is not modelled (host
filesystem).  The binary operator case covers the token-to-symbol dispatch of
visit_binary_operator_node, the unary case the minus-to-times-minus-one and
not dispatch of visit_unary_operator_node. -/
def visit : ℕ → AstNode → InterpState → Option (RuntimeResult × InterpState)
  | 0, _, _ => none
  | fuel + 1, node, st =>
    match node with
    | .numberLit q => some (.successWith (some (.num q)), st)
    | .stringLit s => some (.successWith (some (.str s)), st)
    | .listNode elementNodes =>
      match visitElements fuel elementNodes st with
      | none => none
      | some (.inl p) => some p
      | some (.inr (vs, st1)) => some (.successWith (some (.list vs)), st1)
    | .varAccess name =>
      match envGet st.env name with
      | none =>
        some (.failureWith ⟨"variable name '" ++ name ++ "' is undefined", none⟩, st)
      | some v => some (.successWith (some (retagContext v st.env)), st)
    | .varAssign name valueNode =>
      match visit fuel valueNode st with
      | none => none
      | some (sub, st1) =>
        if sub.shouldReturn then some (sub.propagate, st1)
        else some (.successWith sub.value, { st1 with env := envSet st1.env name sub.value })
    | .constAssign name valueNode =>
      match visit fuel valueNode st with
      | none => none
      | some (sub, st1) =>
        if sub.shouldReturn then some (sub.propagate, st1)
        else if (envGet st1.env name).isSome then
          some (.failureWith ⟨"cannot reassign the value of a constant", none⟩, st1)
        else some (.successWith sub.value, { st1 with env := envSet st1.env name sub.value })
    | .binaryOp op left right =>
      match visit fuel left st with
      | none => none
      | some (subL, st1) =>
        if subL.shouldReturn then some (subL.propagate, st1)
        else
          match subL.value with
          | none => none
          | some lv =>
            match visit fuel right st1 with
            | none => none
            | some (subR, st2) =>
              if subR.shouldReturn then some (subR.propagate, st2)
              else
                match subR.value with
                | none => none
                | some rv =>
                  match valuePerformOperation powf lv op rv with
                  | none => none
                  | some (.error e) => some (.failureWith e, st2)
                  | some (.ok v) => some (.successWith (some v), st2)
    | .unaryOp op operand =>
      match visit fuel operand st with
      | none => none
      | some (sub, st1) =>
        if sub.shouldReturn then some (sub.propagate, st1)
        else
          match sub.value with
          | none => none
          | some v =>
            match
              (if op = "-" then valuePerformOperation powf v "*" (.num (-1))
               else if op = "not" then valuePerformOperation powf v "not" (.num 0)
               else some (.error ⟨"unsupported unary operation", none⟩)) with
            | none => none
            | some (.error e) => some (.failureWith e, st1)
            | some (.ok r) => some (.successWith (some r), st1)
    | .ifNode cases elseCase => visitIfCases fuel cases elseCase st
    | .forNode varName startNode endNode stepNode body =>
      match visit fuel startNode st with
      | none => none
      | some (subS, st1) =>
        match subS.value with
        | none => none
        | some sv =>
          match sv with
          | .num startv =>
            if subS.shouldReturn then some (subS.propagate, st1)
            else
              match visit fuel endNode st1 with
              | none => none
              | some (subE, st2) =>
                match subE.value with
                | none => none
                | some ev =>
                  match ev with
                  | .num endv =>
                    if subE.shouldReturn then some (subE.propagate, st2)
                    else
                      match stepNode with
                      | some sn =>
                        match visit fuel sn st2 with
                        | none => none
                        | some (subP, st3) =>
                          match subP.value with
                          | none => none
                          | some pv =>
                            match pv with
                            | .num stepv =>
                              if subP.shouldReturn then some (subP.propagate, st3)
                              else forAux fuel body varName startv endv stepv st3
                            | _ =>
                              some (.failureWith ⟨"expected step value as number", none⟩, st3)
                      | none => forAux fuel body varName startv endv 1 st2
                  | _ => some (.failureWith ⟨"expected end value as number", none⟩, st2)
          | _ => some (.failureWith ⟨"expected start value as number", none⟩, st1)
    | .whileNode condNode body => whileAux fuel condNode body st
    | .tryExcept tryBody exceptBody errName =>
      match visit fuel tryBody st with
      | none => none
      | some (sub, st1) =>
        match sub.error with
        | some e =>
          let st2 : InterpState :=
            { st1 with env := envSet st1.env errName (some (.str e.text)) }
          match visit fuel exceptBody st2 with
          | none => none
          | some (sub2, st3) =>
            if sub2.error.isSome then some (sub2.propagate, st3)
            else if sub2.shouldReturn then some (sub2.propagate, st3)
            else some (.successWith (some (.num 0)), st3)
        | none =>
          if sub.shouldReturn then some (sub.propagate, st1)
          else some (.successWith (some (.num 0)), st1)
    | .funcDef nameOpt argNames body shouldAutoReturn =>
      let funcName := nameOpt.getD ""
      let fv : Value := .func funcName argNames body shouldAutoReturn st.env
      if funcName.isEmpty then some (.successWith (some fv), st)
      else some (.successWith (some fv), { st with env := envSet st.env funcName (some fv) })
    | .call calleeNode argNodes =>
      match visit fuel calleeNode st with
      | none => none
      | some (sub, st1) =>
        if sub.shouldReturn then some (sub.propagate, st1)
        else
          match sub.value with
          | none => none
          | some callee =>
            match visitElements fuel argNodes st1 with
            | none => none
            | some (.inl p) => some p
            | some (.inr (args, st2)) =>
              match callee with
              | .func fname fargNames fbody fauto fctx =>
                match funcExecute fuel fname fargNames fbody fauto fctx args st2.out with
                | none => none
                | some (r, out2) =>
                  if r.shouldReturn then some (r.propagate, { st2 with out := out2 })
                  else
                    match r.value with
                    | none => none
                    | some rv =>
                      some (.successWith (some (retagContext rv st2.env)),
                        { st2 with out := out2 })
              | .builtin bname =>
                match builtinExecute bname args st2.out with
                | none => none
                | some (r, out2) =>
                  if r.shouldReturn then some (r.propagate, { st2 with out := out2 })
                  else
                    match r.value with
                    | none => none
                    | some rv =>
                      some (.successWith (some (retagContext rv st2.env)),
                        { st2 with out := out2 })
              | _ => some (.failureWith ⟨"expected function as call", none⟩, st2)
    | .returnNode valueNodeOpt =>
      match valueNodeOpt with
      | some vn =>
        match visit fuel vn st with
        | none => none
        | some (sub, st1) =>
          if sub.shouldReturn then some (sub.propagate, st1)
          else
            match sub.value with
            | none => none
            | some v => some (.returnWith (some v), st1)
      | none => some (.returnWith (some (.num 0)), st)
    | .continueNode => some (.continueSignal, st)
    | .breakNode => some (.breakSignal, st)

/-- The element loops of visit_list_node and visit_call_node: evaluate nodes
left to right; a sub-result that should return is propagated (inl); a
sub-result with no value and no signal would unwrap None in the source
(none); otherwise the collected values are handed back (inr). -/
def visitElements : ℕ → List AstNode → InterpState →
    Option (Sum (RuntimeResult × InterpState) (List Value × InterpState))
  | _, [], st => some (.inr ([], st))
  | 0, _ :: _, _ => none
  | fuel + 1, n :: rest, st =>
    match visit fuel n st with
    | none => none
    | some (sub, st1) =>
      if sub.shouldReturn then some (.inl (sub.propagate, st1))
      else
        match sub.value with
        | none => none
        | some v =>
          match visitElements fuel rest st1 with
          | none => none
          | some (.inl p) => some (.inl p)
          | some (.inr (vs, st2)) => some (.inr (v :: vs, st2))

/-- The case loop of visit_if_node: conditions are evaluated in order; the
first true one selects its body (a block body substitutes the null number);
with no match the else case runs if present, otherwise the null number is
produced. -/
def visitIfCases : ℕ → List (AstNode × AstNode × Bool) → Option (AstNode × Bool) →
    InterpState → Option (RuntimeResult × InterpState)
  | _, [], none, st => some (.successWith (some (.num 0)), st)
  | 0, [], some _, _ => none
  | fuel + 1, [], some (expr, shouldNull), st =>
    match visit fuel expr st with
    | none => none
    | some (sub, st1) =>
      if sub.shouldReturn then some (sub.propagate, st1)
      else some (.successWith (if shouldNull then some (.num 0) else sub.value), st1)
  | 0, _ :: _, _, _ => none
  | fuel + 1, (condNode, expr, shouldNull) :: rest, elseCase, st =>
    match visit fuel condNode st with
    | none => none
    | some (sub, st1) =>
      if sub.shouldReturn then some (sub.propagate, st1)
      else
        match sub.value with
        | none => none
        | some cv =>
          if valueIsTrue cv then
            match visit fuel expr st1 with
            | none => none
            | some (sub2, st2) =>
              if sub2.shouldReturn then some (sub2.propagate, st2)
              else some (.successWith (if shouldNull then some (.num 0) else sub2.value), st2)
          else visitIfCases fuel rest elseCase st1

/-- The iteration loop of visit_for_node (interpreting/interpreter.rs lines
401-467): while the counter is below the end value (step at least 0) or above
it (negative step), bind the loop variable to the counter, advance the
counter by the step, run the body; an error or return aborts the loop,
continue moves on, break exits; afterwards the loop produces the null
number. -/
def forAux : ℕ → AstNode → String → ℚ → ℚ → ℚ → InterpState →
    Option (RuntimeResult × InterpState)
  | 0, _, _, _, _, _, _ => none
  | fuel + 1, body, varName, i, endv, stepv, st =>
    if (if 0 ≤ stepv then i < endv else endv < i) then
      let st1 : InterpState := { st with env := envSet st.env varName (some (.num i)) }
      match visit fuel body st1 with
      | none => none
      | some (sub, st2) =>
        if sub.shouldReturn ∧ ¬sub.loopShouldContinue ∧ ¬sub.loopShouldBreak then
          some (sub.propagate, st2)
        else if sub.loopShouldContinue then
          forAux fuel body varName (i + stepv) endv stepv st2
        else if sub.loopShouldBreak then some (.successWith (some (.num 0)), st2)
        else forAux fuel body varName (i + stepv) endv stepv st2
    else some (.successWith (some (.num 0)), st)

/-- The iteration loop of visit_while_node: repeat the body while the
condition is truthy, with the same signal handling as the counted loop. -/
def whileAux : ℕ → AstNode → AstNode → InterpState → Option (RuntimeResult × InterpState)
  | 0, _, _, _ => none
  | fuel + 1, condNode, body, st =>
    match visit fuel condNode st with
    | none => none
    | some (sub, st1) =>
      if sub.shouldReturn then some (sub.propagate, st1)
      else
        match sub.value with
        | none => none
        | some cv =>
          if valueIsTrue cv then
            match visit fuel body st1 with
            | none => none
            | some (sub2, st2) =>
              if sub2.shouldReturn ∧ ¬sub2.loopShouldContinue ∧ ¬sub2.loopShouldBreak then
                some (sub2.propagate, st2)
              else if sub2.loopShouldBreak then some (.successWith (some (.num 0)), st2)
              else whileAux fuel condNode body st2
          else some (.successWith (some (.num 0)), st1)

/-- Model of Function::execute (values/function.rs lines 125-148): arity gate
via check_args, then the body runs in a fresh table parented on the chain the
function value's CONTEXT field carries (generate_new_context).  That field is
written at the definition site and overwritten by the set_context re-tags of
variable access and call results, so for a function called through a variable
read it is the access site's chain.  The produced value is the body's value
when auto-returning, else the explicit return value, else the null number, in
that precedence.  The caller's own environment is untouched. -/
def funcExecute : ℕ → String → List String → AstNode → Bool → Env → List Value →
    List String → Option (RuntimeResult × List String)
  | 0, _, _, _, _, _, _, _ => none
  | fuel + 1, fname, fargNames, fbody, fauto, fctx, args, out =>
    if args.length > fargNames.length ∨ args.length < fargNames.length then
      some (.failureWith (arityError fname fargNames.length args.length), out)
    else
      match visit fuel fbody { env := populateArgs fargNames args [] :: fctx, out := out } with
      | none => none
      | some (sub, st1) =>
        if sub.shouldReturn ∧ sub.funcReturnValue.isNone then some (sub.propagate, st1.out)
        else
          some (.successWith
            (((if fauto then sub.value else none).or sub.funcReturnValue).or (some (.num 0))),
            st1.out)

end

end Interpreter

/-! Helper facts about the runtime-result constructors and the environment
chain, shared by the claim theorems below. -/

@[simp]
theorem shouldReturn_successWith (v : Option Value) :
    (RuntimeResult.successWith v).shouldReturn = false := rfl

@[simp]
theorem shouldReturn_failureWith (e : StandardError) :
    (RuntimeResult.failureWith e).shouldReturn = true := rfl

@[simp]
theorem value_successWith (v : Option Value) :
    (RuntimeResult.successWith v).value = v := rfl

@[simp]
theorem error_successWith (v : Option Value) :
    (RuntimeResult.successWith v).error = none := rfl

@[simp]
theorem funcReturnValue_successWith (v : Option Value) :
    (RuntimeResult.successWith v).funcReturnValue = none := rfl

@[simp]
theorem loopShouldContinue_successWith (v : Option Value) :
    (RuntimeResult.successWith v).loopShouldContinue = false := rfl

@[simp]
theorem loopShouldBreak_successWith (v : Option Value) :
    (RuntimeResult.successWith v).loopShouldBreak = false := rfl

@[simp]
theorem valueAsString_num (q : ℚ) : valueAsString (.num q) = numberAsString q := by
  simp [valueAsString]

@[simp]
theorem valueAsString_str (s : String) : valueAsString (.str s) = s := by
  simp [valueAsString]

theorem frameGet_frameSet_self (fr : Frame) (n : String) (v : Option Value) :
    frameGet (frameSet fr n v) n = some v := by
  induction fr with
  | nil => simp [frameSet, frameGet]
  | cons kv rest ih =>
    obtain ⟨k, w⟩ := kv
    by_cases h : k = n
    · simp [frameSet, frameGet, h]
    · simp [frameSet, frameGet, h, ih]

theorem frameGet_frameSet_ne (fr : Frame) (m n : String) (v : Option Value)
    (h : m ≠ n) :
    frameGet (frameSet fr n v) m = frameGet fr m := by
  induction fr with
  | nil => simp [frameSet, frameGet, Ne.symm h]
  | cons kv rest ih =>
    obtain ⟨k, w⟩ := kv
    by_cases hk : k = n
    · subst hk
      simp [frameSet, frameGet, Ne.symm h]
    · simp [frameSet, frameGet, hk, ih]

theorem envGet_envSet_self (env : Env) (n : String) (v : Option Value)
    (hne : env ≠ []) (hn : n ≠ "_") :
    envGet (envSet env n v) n = v := by
  cases env with
  | nil => exact absurd rfl hne
  | cons fr rest => simp [envSet, hn, envGet, frameGet_frameSet_self]

theorem envGet_envSet_ne (env : Env) (m n : String) (v : Option Value) (h : m ≠ n) :
    envGet (envSet env n v) m = envGet env m := by
  cases env with
  | nil => rfl
  | cons fr rest =>
    by_cases h0 : n = "_"
    · simp [envSet, h0]
    · simp [envSet, h0, envGet, frameGet_frameSet_ne fr m n v h]

theorem envSet_ne_nil (env : Env) (n : String) (v : Option Value) (h : env ≠ []) :
    envSet env n v ≠ [] := by
  cases env with
  | nil => exact absurd rfl h
  | cons fr rest => by_cases h0 : n = "_" <;> simp [envSet, h0]

/-- An arbitrary concrete instantiation of the abstracted host power
primitive, used when evaluating closed instances of the theorems. -/
def powfAny : ℚ → ℚ → ℚ := fun _ _ => 0

/-- Number of iterations the counted loop performs from counter i: the loop
runs while the counter is below (positive step) or above (negative step) the
end value, stepping by stepv, which amounts to the ceiling of
(endv - i) / stepv; a zero step loops forever when the condition holds (no
iteration count exists), and 0 is returned as a junk value in that case. -/
def iterCount (i endv stepv : ℚ) : ℕ :=
  if stepv = 0 then 0 else (⌈(endv - i) / stepv⌉).toNat

theorem iterCount_zero_stop (i endv stepv : ℚ) (hs : stepv ≠ 0)
    (h : iterCount i endv stepv = 0) :
    ¬(if 0 ≤ stepv then i < endv else endv < i) := by
  rw [iterCount, if_neg hs] at h
  have hce : ⌈(endv - i) / stepv⌉ ≤ 0 := by omega
  rcases lt_or_gt_of_ne hs with hneg | hpos
  · rw [if_neg (not_le.mpr hneg)]
    intro hlt
    have hx : 0 < (endv - i) / stepv := div_pos_of_neg_of_neg (by linarith) hneg
    have := Int.ceil_pos.mpr hx
    omega
  · rw [if_pos hpos.le]
    intro hlt
    have hx : 0 < (endv - i) / stepv := div_pos (by linarith) hpos
    have := Int.ceil_pos.mpr hx
    omega

theorem iterCount_succ_cond (i endv stepv : ℚ) (hs : stepv ≠ 0) (m : ℕ)
    (h : iterCount i endv stepv = m + 1) :
    (if 0 ≤ stepv then i < endv else endv < i) := by
  rw [iterCount, if_neg hs] at h
  have hpos : 0 < ⌈(endv - i) / stepv⌉ := by omega
  have hx : 0 < (endv - i) / stepv := Int.ceil_pos.mp hpos
  rcases lt_or_gt_of_ne hs with hneg | hpos2
  · rw [if_neg (not_le.mpr hneg)]
    by_contra hc
    push_neg at hc
    have : (endv - i) / stepv ≤ 0 :=
      div_nonpos_iff.mpr (Or.inl ⟨by linarith, hneg.le⟩)
    linarith
  · rw [if_pos hpos2.le]
    by_contra hc
    push_neg at hc
    have : (endv - i) / stepv ≤ 0 :=
      div_nonpos_iff.mpr (Or.inr ⟨by linarith, hpos2.le⟩)
    linarith

theorem iterCount_step (i endv stepv : ℚ) (hs : stepv ≠ 0) (m : ℕ)
    (h : iterCount i endv stepv = m + 1) :
    iterCount (i + stepv) endv stepv = m := by
  rw [iterCount, if_neg hs] at h ⊢
  have hx : (endv - (i + stepv)) / stepv = (endv - i) / stepv - 1 := by
    field_simp
    ring
  rw [hx, Int.ceil_sub_one]
  omega

/-- The canonical observing loop body from the specification example: the
MaidCode statement serve(tostring(i)), which prints the loop variable's
textual form each time the body runs. -/
def observeBody (varName : String) : AstNode :=
  .call (.varAccess "serve") [.call (.varAccess "tostring") [.varAccess varName]]

theorem observe_body_run (powf : ℚ → ℚ → ℚ) (g : ℕ) (varName : String)
    (env : Env) (out : List String) (q : ℚ)
    (hserve : envGet env "serve" = some (.builtin "serve"))
    (hto : envGet env "tostring" = some (.builtin "tostring"))
    (hvar : envGet env varName = some (.num q)) :
    visit powf (g + 6) (observeBody varName) ⟨env, out⟩ =
      some (.successWith (some (.num 0)), ⟨env, out ++ [numberAsString q]⟩) := by
  simp only [observeBody, visit, visitElements, hserve, hto, hvar, retagContext,
    builtinExecute, valueAsString_num, valueAsString_str, RuntimeResult.successWith,
    RuntimeResult.shouldReturn, RuntimeResult.propagate]
  simp

/-! Claim theorems. -/

/-- C8: the truthiness test used by conditionals and loops
(Value::is_true) holds exactly when the value is a number other than zero, a
list with no elements, a string with empty text, or a function or built-in
function with an empty name. -/
theorem truthiness_characterization (v : Value) :
    valueIsTrue v = true ↔
      ((∃ q, v = .num q ∧ q ≠ 0) ∨
       (∃ elements, v = .list elements ∧ elements = []) ∨
       (∃ s, v = .str s ∧ s = "") ∨
       (∃ n a b c cap, v = .func n a b c cap ∧ n = "") ∨
       (∃ n, v = .builtin n ∧ n = "")) := by
  cases v <;>
    simp [valueIsTrue, List.isEmpty_iff, String.isEmpty_iff, bne_iff_ne]

/-- C4: Number::perform_operation divides with an error exactly on divisor
zero, exponentiates with an error exactly on a non-positive exponent (handing
the positive case to the host power primitive), and takes the modulo with an
error exactly on a non-positive divisor (floored modulo otherwise). -/
theorem number_domain_errors (powf : ℚ → ℚ → ℚ) (a b : ℚ) :
    (b = 0 → numberPerformOperation powf a "/" (.num b) =
      .error ⟨"division by zero", none⟩) ∧
    (b ≠ 0 → numberPerformOperation powf a "/" (.num b) = .ok (.num (a / b))) ∧
    (b ≤ 0 → numberPerformOperation powf a "^" (.num b) =
      .error ⟨"powered by operator less than or equal to 0", none⟩) ∧
    (0 < b → numberPerformOperation powf a "^" (.num b) = .ok (.num (powf a b))) ∧
    (b ≤ 0 → numberPerformOperation powf a "%" (.num b) =
      .error ⟨"modded by operator less than or equal to 0", none⟩) ∧
    (0 < b → numberPerformOperation powf a "%" (.num b) =
      .ok (.num (a - b * ⌊a / b⌋))) := by
  refine ⟨fun h => by simp [numberPerformOperation, h],
    fun h => by simp [numberPerformOperation, h],
    fun h => by simp [numberPerformOperation, h],
    fun h => by simp [numberPerformOperation, not_le.mpr h],
    fun h => by simp [numberPerformOperation, h],
    fun h => by simp [numberPerformOperation, not_le.mpr h]⟩

/-- C4 witness: dividing 5 by 0 and raising 5 to the 0 are the errors the
claim names, and 7 modulo 3 is the floored modulo 1. -/
theorem number_domain_errors_witness :
    numberPerformOperation powfAny 5 "/" (.num 0) =
      .error ⟨"division by zero", none⟩ ∧
    numberPerformOperation powfAny 5 "^" (.num 0) =
      .error ⟨"powered by operator less than or equal to 0", none⟩ ∧
    numberPerformOperation powfAny 7 "%" (.num 3) = .ok (.num (7 - 3 * ⌊(7 : ℚ) / 3⌋)) :=
  ⟨(number_domain_errors powfAny 5 0).1 rfl,
   (number_domain_errors powfAny 5 0).2.2.1 le_rfl,
   (number_domain_errors powfAny 7 3).2.2.2.2.2 (by norm_num)⟩

/-- C10: list equality with at least one empty operand pairs no elements, so
the accumulator keeps its initial null value and the comparison yields the
number 0 - in particular two empty lists compare to 0, not 1. -/
theorem list_eq_empty_yields_zero (powf : ℚ → ℚ → ℚ) (L R : List Value)
    (h : L = [] ∨ R = []) :
    listPerformOperation powf L "==" (.list R) = some (.ok (.num 0)) := by
  rcases h with rfl | rfl
  · cases R <;> simp [listPerformOperation, listZipCompare]
  · cases L <;> simp [listPerformOperation, listZipCompare]

/-- C10 witness: two empty lists compare equal to the number 0. -/
theorem list_eq_empty_yields_zero_witness :
    listPerformOperation powfAny [] "==" (.list []) = some (.ok (.num 0)) :=
  list_eq_empty_yields_zero powfAny [] [] (Or.inl rfl)

/-- C2 fails as stated: comparing the lists holding 1, 2 and 3, 2 yields the
number 1 (equal) although their first paired elements 1 and 3 compare
unequal, because each pair's result overwrites the accumulator. -/
theorem list_eq_last_pair_counterexample :
    listPerformOperation powfAny [.num 1, .num 2] "==" (.list [.num 3, .num 2]) =
      some (.ok (.num 1)) ∧
    valuePerformOperation powfAny (.num 1) "==" (.num 3) = some (.ok (.num 0)) := by
  constructor
  · simp [listPerformOperation, listZipCompare, valuePerformOperation,
      numberPerformOperation]
  · simp [valuePerformOperation, numberPerformOperation]

/-- The pair relation of the amended C2: one positionally paired couple of
elements compares, under the given operator, successfully to the value v. -/
def pairComparesTo (powf : ℚ → ℚ → ℚ) (op : String) : Value × Value → Value → Prop
  | (a, b), v => valuePerformOperation powf a op b = some (.ok v)

/-- Accumulator behavior of the pair loop when every pair comparison
succeeds (the successive results being qs): the loop yields the LAST result,
or the accumulator when no pair exists. -/
theorem listZipCompare_ok_getLastD (powf : ℚ → ℚ → ℚ) (op : String) :
    ∀ (xs ys qs : List Value) (acc : Value),
      List.Forall₂ (pairComparesTo powf op) (xs.zip ys) qs →
      listZipCompare powf xs ys op acc = some (.ok (qs.getLastD acc)) := by
  intro xs
  induction xs with
  | nil =>
    intro ys qs acc hf
    rw [List.zip_nil_left] at hf
    cases hf
    cases ys <;> simp [listZipCompare, List.getLastD_nil]
  | cons x xs1 ih =>
    intro ys qs acc hf
    cases ys with
    | nil =>
      rw [List.zip_nil_right] at hf
      cases hf
      simp [listZipCompare, List.getLastD_nil]
    | cons y ys1 =>
      rw [List.zip_cons_cons] at hf
      cases hf with
      | cons h1 h2 =>
        simp only [pairComparesTo] at h1
        simp only [listZipCompare, h1]
        rw [ih ys1 _ _ h2, List.getLastD_cons]

/-- Accumulator behavior of the pair loop when a pair comparison errors: the
pairs before the first erroring one succeed, and that pair's error is the
loop's result. -/
theorem listZipCompare_first_error (powf : ℚ → ℚ → ℚ) (op : String) :
    ∀ (ps1 : List (Value × Value)) (xs ys vs : List Value) (a b : Value)
      (ps2 : List (Value × Value)) (e : StandardError) (acc : Value),
      xs.zip ys = ps1 ++ (a, b) :: ps2 →
      List.Forall₂ (pairComparesTo powf op) ps1 vs →
      valuePerformOperation powf a op b = some (.error e) →
      listZipCompare powf xs ys op acc = some (.error e) := by
  intro ps1
  induction ps1 with
  | nil =>
    intro xs ys vs a b ps2 e acc hzip hf herr
    cases xs with
    | nil => simp at hzip
    | cons x xs1 =>
      cases ys with
      | nil => simp at hzip
      | cons y ys1 =>
        rw [List.zip_cons_cons, List.nil_append] at hzip
        obtain ⟨h1, h2⟩ := List.cons.inj hzip
        obtain ⟨rfl, rfl⟩ := Prod.mk.inj h1
        simp only [listZipCompare, herr]
  | cons p ps1' ih =>
    intro xs ys vs a b ps2 e acc hzip hf herr
    cases xs with
    | nil => simp at hzip
    | cons x xs1 =>
      cases ys with
      | nil => simp at hzip
      | cons y ys1 =>
        rw [List.zip_cons_cons, List.cons_append] at hzip
        obtain ⟨h1, h2⟩ := List.cons.inj hzip
        cases hf with
        | cons hpv htail =>
          rw [← h1] at hpv
          simp only [pairComparesTo] at hpv
          simp only [listZipCompare, hpv]
          exact ih xs1 ys1 _ a b ps2 e _ h2 htail herr

/-- C2 amended: for all list values L and R, the equality operators pair
elements positionally up to the shorter length (a length mismatch is
ignored) and walk the pairs in order; when every pair's comparison succeeds
the result is the LAST pair's comparison result - not the conjunction over
all pairs - and the number 0 when no pair exists (either list empty); the
first pair whose comparison errors makes the whole operation yield that
error.  The same holds for the disequality operator. -/
theorem list_eq_compares_last_pair (powf : ℚ → ℚ → ℚ) (op : String)
    (hop : op = "==" ∨ op = "!=") (L R : List Value) :
    (∀ qs : List Value,
      List.Forall₂ (pairComparesTo powf op) (L.zip R) qs →
      listPerformOperation powf L op (.list R) = some (.ok (qs.getLastD (.num 0)))) ∧
    (∀ (ps1 : List (Value × Value)) (a b : Value) (ps2 : List (Value × Value))
        (vs : List Value) (e : StandardError),
      L.zip R = ps1 ++ (a, b) :: ps2 →
      List.Forall₂ (pairComparesTo powf op) ps1 vs →
      valuePerformOperation powf a op b = some (.error e) →
      listPerformOperation powf L op (.list R) = some (.error e)) := by
  have hdisp : listPerformOperation powf L op (.list R) =
      listZipCompare powf L R op (.num 0) := by
    rcases hop with rfl | rfl <;> simp [listPerformOperation]
  constructor
  · intro qs hf
    rw [hdisp]
    exact listZipCompare_ok_getLastD powf op L R qs (.num 0) hf
  · intro ps1 a b ps2 vs e hzip hf herr
    rw [hdisp]
    exact listZipCompare_first_error powf op ps1 L R vs a b ps2 e (.num 0) hzip hf herr

/-- C2 amended witness.  On the counterexample lists the pairwise results are
0 then 1, so the equality operator yields the last result 1; and a list whose
first pair comparison errors (a built-in compared to a number) yields that
error. -/
theorem list_eq_compares_last_pair_witness :
    (List.Forall₂ (pairComparesTo powfAny "==")
      ([Value.num 1, Value.num 2].zip [Value.num 3, Value.num 2])
      [Value.num 0, Value.num 1] ∧
     listPerformOperation powfAny [Value.num 1, Value.num 2] "=="
        (.list [Value.num 3, Value.num 2]) =
      some (.ok (([Value.num 0, Value.num 1]).getLastD (.num 0)))) ∧
    ([Value.builtin "b"].zip [Value.num 1] =
        [] ++ ((Value.builtin "b", Value.num 1) :: []) ∧
     valuePerformOperation powfAny (.builtin "b") "==" (.num 1) =
      some (.error ⟨"type doesn't support the '==' operator", none⟩) ∧
     listPerformOperation powfAny [Value.builtin "b"] "==" (.list [Value.num 1]) =
      some (.error ⟨"type doesn't support the '==' operator", none⟩)) := by
  have hf : List.Forall₂ (pairComparesTo powfAny "==")
      ([Value.num 1, Value.num 2].zip [Value.num 3, Value.num 2])
      [Value.num 0, Value.num 1] := by
    refine .cons ?_ (.cons ?_ .nil) <;>
      simp [pairComparesTo, valuePerformOperation, numberPerformOperation]
  have herr : valuePerformOperation powfAny (.builtin "b") "==" (.num 1) =
      some (.error ⟨"type doesn't support the '==' operator", none⟩) := by
    simp [valuePerformOperation]
  refine ⟨⟨hf, ?_⟩, rfl, herr, ?_⟩
  · exact (list_eq_compares_last_pair powfAny "==" (Or.inl rfl)
      [Value.num 1, Value.num 2] [Value.num 3, Value.num 2]).1
      [Value.num 0, Value.num 1] hf
  · exact (list_eq_compares_last_pair powfAny "==" (Or.inl rfl)
      [Value.builtin "b"] [Value.num 1]).2 [] (.builtin "b") (.num 1) [] []
      ⟨"type doesn't support the '==' operator", none⟩ rfl .nil herr

/-- C3 fails on the code: indexing the one-character, two-byte string holding
the letter e-acute at index 1 passes the bounds check (which uses the byte
length 2) but chars().nth(1) is None and the source unwraps it - a host
panic, modelled as none.  The string caret operation is therefore not total
on multi-byte text. -/
theorem string_index_multibyte_panics :
    strPerformOperation "é" "^" (.num 1) = none := by rfl

/-- C6: the arity gate of a user-defined function call
(Function::check_args) fails exactly when the argument count differs from the
parameter count - in either direction - with an error whose hint names the
expected and the given counts, and succeeds whenever the counts match,
independently of the argument values. -/
theorem arity_gate (name : String) (argNames : List String) (args : List Value) :
    (args.length ≠ argNames.length →
      functionCheckArgs name argNames args =
        .failureWith (arityError name argNames.length args.length) ∧
      ∃ pre mid, arityHint name argNames.length args.length =
        pre ++ toString argNames.length ++ mid ++ toString args.length) ∧
    (args.length = argNames.length →
      functionCheckArgs name argNames args = .successWith none) := by
  constructor
  · intro h
    have hlt : args.length > argNames.length ∨ args.length < argNames.length := by omega
    refine ⟨by simp [functionCheckArgs, hlt], name ++ " takes ",
      " positional argument(s) but the program gave ", rfl⟩
  · intro h
    have hn : ¬(args.length > argNames.length ∨ args.length < argNames.length) := by omega
    simp [functionCheckArgs, hn]

/-- C6 witness: calling a one-parameter function with no arguments fails with
the arity error whose hint names 1 and 0; calling it with one argument passes
the gate whatever the argument is. -/
theorem arity_gate_witness :
    (([] : List Value).length ≠ (["a"]).length ∧
      (functionCheckArgs "f" ["a"] [] = .failureWith (arityError "f" 1 0) ∧
       ∃ pre mid, arityHint "f" 1 0 = pre ++ toString 1 ++ mid ++ toString 0)) ∧
    ([Value.builtin "b"].length = (["a"]).length ∧
      functionCheckArgs "f" ["a"] [.builtin "b"] = .successWith none) :=
  ⟨⟨by decide, (arity_gate "f" ["a"] []).1 (by decide)⟩,
   ⟨rfl, (arity_gate "f" ["a"] [.builtin "b"]).2 rfl⟩⟩

/-- C9: evaluating unary minus on an expression that yields a list never
errors: visit_unary_operator_node dispatches minus as a star operation with
the number -1, and the list star operation is a push, so the result is the
original list with the number -1 appended as a new last element. -/
theorem unary_minus_on_list_appends (powf : ℚ → ℚ → ℚ) (fuel : ℕ) (node : AstNode)
    (st st1 : InterpState) (L : List Value)
    (h : visit powf fuel node st = some (.successWith (some (.list L)), st1)) :
    visit powf (fuel + 1) (.unaryOp "-" node) st =
      some (.successWith (some (.list (L ++ [.num (-1)]))), st1) := by
  simp only [visit, h]
  simp [RuntimeResult.successWith, RuntimeResult.shouldReturn, valuePerformOperation,
    listPerformOperation]

/-- C9 witness: minus applied to the empty list literal yields the one-element
list holding -1. -/
theorem unary_minus_on_list_appends_witness :
    (visit powfAny 1 (.listNode []) ⟨[[]], []⟩ =
      some (.successWith (some (.list [])), ⟨[[]], []⟩)) ∧
    visit powfAny 2 (.unaryOp "-" (.listNode [])) ⟨[[]], []⟩ =
      some (.successWith (some (.list ([] ++ [.num (-1)]))), ⟨[[]], []⟩) :=
  ⟨rfl, unary_minus_on_list_appends powfAny 1 (.listNode []) ⟨[[]], []⟩ ⟨[[]], []⟩ [] rfl⟩

/-- C1 fails as stated: in a scope chain whose innermost (current) table does
not bind x but whose parent does, the constant assignment of x errors, so a
constant cannot shadow an ancestor binding. -/
theorem const_shadowing_rejected_counterexample :
    frameGet ([] : Frame) "x" = none ∧
    visit powfAny 2 (.constAssign "x" (.numberLit 1)) ⟨[[], [("x", some (.num 5))]], []⟩ =
      some (.failureWith ⟨"cannot reassign the value of a constant", none⟩,
        ⟨[[], [("x", some (.num 5))]], []⟩) :=
  ⟨rfl, rfl⟩

/-- C1 amended: after the value expression evaluates normally, the constant
assignment errors exactly when SymbolTable::get resolves the name anywhere in
the scope chain - the innermost table first, then the ancestors - and binds
the name in the innermost table otherwise. -/
theorem const_assign_checks_whole_chain (powf : ℚ → ℚ → ℚ) (fuel : ℕ)
    (name : String) (valueNode : AstNode) (st st1 : InterpState) (v : Value)
    (h : visit powf fuel valueNode st = some (.successWith (some v), st1)) :
    visit powf (fuel + 1) (.constAssign name valueNode) st =
      if (envGet st1.env name).isSome then
        some (.failureWith ⟨"cannot reassign the value of a constant", none⟩, st1)
      else some (.successWith (some v), { st1 with env := envSet st1.env name (some v) }) := by
  simp only [visit, h]
  simp [RuntimeResult.successWith, RuntimeResult.shouldReturn]

/-- C1 amended witness: constant-assigning x with x bound only in the parent
table hits the error branch because the chain lookup finds it. -/
theorem const_assign_checks_whole_chain_witness :
    (visit powfAny 1 (.numberLit 1) ⟨[[], [("x", some (.num 5))]], []⟩ =
      some (.successWith (some (.num 1)), ⟨[[], [("x", some (.num 5))]], []⟩)) ∧
    visit powfAny 2 (.constAssign "x" (.numberLit 1)) ⟨[[], [("x", some (.num 5))]], []⟩ =
      if (envGet [[], [("x", some (.num 5))]] "x").isSome then
        some (.failureWith ⟨"cannot reassign the value of a constant", none⟩,
          ⟨[[], [("x", some (.num 5))]], []⟩)
      else some (.successWith (some (.num 1)),
        ⟨envSet [[], [("x", some (.num 5))]] "x" (some (.num 1)), []⟩) :=
  ⟨rfl, const_assign_checks_whole_chain powfAny 1 "x" (.numberLit 1) _ _ _ rfl⟩

/-- C7: try/recover semantics.  If the try body produced an error, its message
text is written as a string under the given name into the current scope and
the recover body is evaluated in that state, propagating any error or
return/break/continue signal the recover body itself produces and otherwise
yielding the null number with no error; if the try body produced a signal
without an error, that signal is propagated and the recover body is not
consulted; a normal try body yields the null number. -/
theorem try_recover_semantics (powf : ℚ → ℚ → ℚ) (fuel : ℕ)
    (tryBody exceptBody : AstNode) (errName : String) (st st1 : InterpState)
    (sub : RuntimeResult)
    (h : visit powf fuel tryBody st = some (sub, st1)) :
    (∀ e, sub.error = some e →
      visit powf (fuel + 1) (.tryExcept tryBody exceptBody errName) st =
        match visit powf fuel exceptBody
            { st1 with env := envSet st1.env errName (some (.str e.text)) } with
        | none => none
        | some (sub2, st3) =>
          if sub2.error.isSome then some (sub2.propagate, st3)
          else if sub2.shouldReturn then some (sub2.propagate, st3)
          else some (.successWith (some (.num 0)), st3)) ∧
    (sub.error = none → sub.shouldReturn →
      visit powf (fuel + 1) (.tryExcept tryBody exceptBody errName) st =
        some (sub.propagate, st1)) ∧
    (sub.error = none → ¬sub.shouldReturn →
      visit powf (fuel + 1) (.tryExcept tryBody exceptBody errName) st =
        some (.successWith (some (.num 0)), st1)) := by
  refine ⟨fun e he => ?_, fun he hs => ?_, fun he hs => ?_⟩ <;>
    simp only [visit, h, he] <;> simp [hs]

/-- C7 witness: a try body that errors (an undefined variable read) leads to
the recover body being evaluated with the message bound, and the block
produces the null number with no error. -/
theorem try_recover_semantics_witness :
    (visit powfAny 1 (.varAccess "nope") ⟨[[]], []⟩ =
      some (.failureWith ⟨"variable name 'nope' is undefined", none⟩, ⟨[[]], []⟩)) ∧
    visit powfAny 2 (.tryExcept (.varAccess "nope") (.numberLit 2) "e") ⟨[[]], []⟩ =
      match visit powfAny 1 (.numberLit 2)
          { env := envSet [[]] "e" (some (.str "variable name 'nope' is undefined")),
            out := [] } with
      | none => none
      | some (sub2, st3) =>
        if sub2.error.isSome then some (sub2.propagate, st3)
        else if sub2.shouldReturn then some (sub2.propagate, st3)
        else some (.successWith (some (.num 0)), st3) :=
  ⟨rfl, (try_recover_semantics powfAny 1 (.varAccess "nope") (.numberLit 2) "e"
    ⟨[[]], []⟩ ⟨[[]], []⟩ (.failureWith ⟨"variable name 'nope' is undefined", none⟩)
    rfl).1 ⟨"variable name 'nope' is undefined", none⟩ rfl⟩

/-- One unfolding step of the counted-loop iteration, stated for an opaque
fuel value so rewriting is single-step. -/
theorem forAux_succ (powf : ℚ → ℚ → ℚ) (g : ℕ) (body : AstNode) (varName : String)
    (i endv stepv : ℚ) (st : InterpState) :
    forAux powf (g + 1) body varName i endv stepv st =
      if (if 0 ≤ stepv then i < endv else endv < i) then
        match visit powf g body { st with env := envSet st.env varName (some (.num i)) } with
        | none => none
        | some (sub, st2) =>
          if sub.shouldReturn ∧ ¬sub.loopShouldContinue ∧ ¬sub.loopShouldBreak then
            some (sub.propagate, st2)
          else if sub.loopShouldContinue then
            forAux powf g body varName (i + stepv) endv stepv st2
          else if sub.loopShouldBreak then some (.successWith (some (.num 0)), st2)
          else forAux powf g body varName (i + stepv) endv stepv st2
      else some (.successWith (some (.num 0)), st) := rfl

/-- The counted loop around the canonical observing body performs exactly
iterCount iterations, printing the counter values i, i + step, i + 2 step and
so on, and finishes with the null number; the loop variable is rebound each
iteration and the scope chain keeps resolving the built-ins. -/
theorem forAux_observe (powf : ℚ → ℚ → ℚ) (varName : String) (endv stepv : ℚ)
    (hv1 : varName ≠ "_") (hv2 : varName ≠ "serve") (hv3 : varName ≠ "tostring")
    (hs : stepv ≠ 0) :
    ∀ n g i env out, iterCount i endv stepv = n → n + 7 ≤ g →
      envGet env "serve" = some (.builtin "serve") →
      envGet env "tostring" = some (.builtin "tostring") →
      env ≠ [] →
      ∃ env2, forAux powf g (observeBody varName) varName i endv stepv ⟨env, out⟩ =
          some (.successWith (some (.num 0)),
            ⟨env2, out ++ ((List.range n).map fun k : ℕ =>
              numberAsString (i + (k : ℚ) * stepv))⟩) ∧
        envGet env2 "serve" = some (.builtin "serve") ∧
        envGet env2 "tostring" = some (.builtin "tostring") ∧ env2 ≠ [] := by
  intro n
  induction n with
  | zero =>
    intro g i env out hcount hg hserve hto hne
    obtain ⟨g1, rfl⟩ : ∃ g1, g = g1 + 1 := ⟨g - 1, by omega⟩
    refine ⟨env, ?_, hserve, hto, hne⟩
    have hstop := iterCount_zero_stop i endv stepv hs hcount
    rw [forAux_succ, if_neg hstop]
    simp
  | succ m ih =>
    intro g i env out hcount hg hserve hto hne
    obtain ⟨g1, rfl⟩ : ∃ g1, g = g1 + 1 := ⟨g - 1, by omega⟩
    have hcond := iterCount_succ_cond i endv stepv hs m hcount
    have henv1 : envGet (envSet env varName (some (.num i))) varName = some (.num i) :=
      envGet_envSet_self env varName _ hne hv1
    have hserve1 : envGet (envSet env varName (some (.num i))) "serve" =
        some (.builtin "serve") := by
      rw [envGet_envSet_ne env "serve" varName _ (Ne.symm hv2)]; exact hserve
    have hto1 : envGet (envSet env varName (some (.num i))) "tostring" =
        some (.builtin "tostring") := by
      rw [envGet_envSet_ne env "tostring" varName _ (Ne.symm hv3)]; exact hto
    have hne1 : envSet env varName (some (.num i)) ≠ [] := envSet_ne_nil env _ _ hne
    obtain ⟨g2, rfl⟩ : ∃ g2, g1 = g2 + 6 := ⟨g1 - 6, by omega⟩
    have hbody := observe_body_run powf g2 varName (envSet env varName (some (.num i)))
      out i hserve1 hto1 henv1
    obtain ⟨env2, hrec, hserve2, hto2, hne2⟩ :=
      ih (g2 + 6) (i + stepv) (envSet env varName (some (.num i)))
        (out ++ [numberAsString i])
        (iterCount_step i endv stepv hs m hcount) (by omega) hserve1 hto1 hne1
    refine ⟨env2, ?_, hserve2, hto2, hne2⟩
    rw [forAux_succ, if_pos hcond]
    dsimp only
    rw [hbody]
    simp only [shouldReturn_successWith, loopShouldContinue_successWith,
      loopShouldBreak_successWith, Bool.false_eq_true, false_and, and_false,
      not_false_eq_true, if_false, ite_false]
    rw [hrec]
    have hmap : ((List.range (m + 1)).map fun k : ℕ =>
        numberAsString (i + (k : ℚ) * stepv)) =
        numberAsString i ::
          ((List.range m).map fun k : ℕ =>
            numberAsString ((i + stepv) + (k : ℚ) * stepv)) := by
      rw [List.range_succ_eq_map, List.map_cons, List.map_map]
      refine congrArg₂ List.cons (by norm_num) ?_
      refine List.map_congr_left fun k _ => ?_
      simp only [Function.comp_apply]
      congr 1
      push_cast
      ring
    rw [hmap]
    simp [List.append_assoc]

/-- C5: a counted loop with numeric start and end values and an optional
numeric nonzero step (default 1), around the specification example's
observing body serve(tostring(i)), runs the body once per iteration with the
loop variable bound to start, start + step, start + 2 step, and so on - the
printed trace records exactly those bindings in order - iterating while the
variable is below the end value (step at least 0) or above it (negative
step), and the loop expression itself evaluates to the null number 0. -/
theorem for_loop_iterates (powf : ℚ → ℚ → ℚ) (varName : String) (startv endv : ℚ)
    (stepOpt : Option ℚ) (n fuel : ℕ) (env : Env) (out : List String)
    (hv1 : varName ≠ "_") (hv2 : varName ≠ "serve") (hv3 : varName ≠ "tostring")
    (hs : stepOpt.getD 1 ≠ 0)
    (hn : iterCount startv endv (stepOpt.getD 1) = n)
    (hfuel : n + 9 ≤ fuel)
    (hserve : envGet env "serve" = some (.builtin "serve"))
    (hto : envGet env "tostring" = some (.builtin "tostring"))
    (hne : env ≠ []) :
    ∃ env2, visit powf fuel
        (.forNode varName (.numberLit startv) (.numberLit endv)
          (stepOpt.map .numberLit) (observeBody varName)) ⟨env, out⟩ =
      some (.successWith (some (.num 0)),
        ⟨env2, out ++ ((List.range n).map fun k : ℕ =>
          numberAsString (startv + (k : ℚ) * stepOpt.getD 1))⟩) := by
  obtain ⟨f2, rfl⟩ : ∃ f2, fuel = (f2 + 1) + 1 := ⟨fuel - 2, by omega⟩
  obtain ⟨env2, hrun, _, _, _⟩ :=
    forAux_observe powf varName endv (stepOpt.getD 1) hv1 hv2 hv3 hs n (f2 + 1) startv
      env out hn (by omega) hserve hto hne
  refine ⟨env2, ?_⟩
  cases stepOpt with
  | none =>
    simp only [Option.getD] at hrun ⊢
    simp only [Option.map, visit, shouldReturn_successWith, Bool.false_eq_true, if_false,
      ite_false]
    exact hrun
  | some stepv =>
    simp only [Option.getD] at hrun ⊢
    simp only [Option.map, visit, shouldReturn_successWith, Bool.false_eq_true, if_false,
      ite_false]
    exact hrun

/-- C5 witness: the specification example - walk i = 0 through 3 with body
print-line(to-string(i)) and no explicit step - runs the body three times
with i bound to 0, 1, 2 in order, prints exactly the lines 0, 1, 2, and the
loop evaluates to the null number. -/
theorem for_loop_iterates_witness :
    iterCount 0 3 ((none : Option ℚ).getD 1) = 3 ∧
    ((List.range 3).map fun k : ℕ =>
      numberAsString ((0 : ℚ) + (k : ℚ) * (none : Option ℚ).getD 1)) = ["0", "1", "2"] ∧
    ∃ env2, visit powfAny 12
        (.forNode "i" (.numberLit 0) (.numberLit 3) ((none : Option ℚ).map .numberLit)
          (observeBody "i"))
        ⟨[[("serve", some (.builtin "serve")), ("tostring", some (.builtin "tostring"))]],
          []⟩ =
      some (.successWith (some (.num 0)),
        ⟨env2, [] ++ ((List.range 3).map fun k : ℕ =>
          numberAsString ((0 : ℚ) + (k : ℚ) * (none : Option ℚ).getD 1))⟩) :=
  ⟨by rw [iterCount]; norm_num; rfl,
   by simp [List.range_succ, numberAsString]; exact ⟨rfl, rfl, rfl⟩,
   for_loop_iterates powfAny "i" 0 3 none 3 12
     [[("serve", some (.builtin "serve")), ("tostring", some (.builtin "tostring"))]] []
     (by decide) (by decide) (by decide) (by simp)
     (by rw [iterCount]; norm_num; rfl) (by omega) rfl rfl (by simp)⟩

end MaidCode
